import Mathlib

/-!
Verification of the MiniZinc Python solving-session protocol engine.

This development shallowly embeds the decoding and session logic of the
minizinc-python repository (modules json.py, instance.py, result.py, error.py)
and proves or refutes the specified properties.  Python byte strings are
embedded as lists of natural numbers (one per byte), Python floats as exact
unreduced fractions (the claims under study never hinge on binary rounding),
dicts as
insertion-ordered association lists, and fallible Python code as values in
an Except monad over a small exception type.
-/

namespace MznPy

/-- Python byte strings, one natural number per byte. -/
abbrev PyBytes := List Nat

/-- Python exceptions that the embedded code can raise. -/
inductive PyExn where
  | keyError
  | indexError
  | valueError
  | typeError
  /-- Raised on access to an attribute an object does not have. -/
  | attributeError
  deriving DecidableEq, Repr

/-- Bytes treated as whitespace by bytes.strip (space, tab, newline, carriage
return, vertical tab, form feed). -/
def isPySpace (b : Nat) : Bool :=
  b == 32 || b == 9 || b == 10 || b == 13 || b == 11 || b == 12

/-- Embedding of bytes.strip: drop ASCII whitespace from both ends. -/
def pyStrip (bs : PyBytes) : PyBytes :=
  ((bs.dropWhile isPySpace).reverse.dropWhile isPySpace).reverse

/-- Embedding of bytes.split applied with the newline byte as separator:
the segments between newline bytes (n newline bytes give n+1 segments). -/
def splitNL : PyBytes → List PyBytes
  | [] => [[]]
  | b :: rest =>
    if b == 10 then [] :: splitNL rest
    else
      match splitNL rest with
      | [] => [[b]]
      | seg :: segs => (b :: seg) :: segs

/-- Index of the first newline byte (length of the list when there is none). -/
def firstNL : PyBytes → Nat
  | [] => 0
  | b :: rest => if b == 10 then 0 else firstNL rest + 1

/-- Embedding of the Python containment test for bytes: the needle occurs as a
contiguous substring of the haystack. -/
def bytesContains : PyBytes → PyBytes → Bool
  | hay, needle =>
    needle.isPrefixOf hay ||
      match hay with
      | [] => false
      | _ :: t => bytesContains t needle

/-- ASCII bytes of a string literal appearing in the Python source. -/
def strBytes (s : String) : PyBytes :=
  s.data.map Char.toNat

/-- Decode an ASCII byte string back into a Lean string (used to embed
bytes.decode on the ASCII fragments the code manipulates). -/
def bytesToString (bs : PyBytes) : String :=
  String.mk (bs.map Char.ofNat)

/-! ## Association lists embedding Python dicts

Python dicts preserve insertion order: assigning to an existing key updates it
in place, assigning a fresh key appends it. -/

/-- Lookup in an insertion-ordered dict. -/
def alGet (m : List (String × α)) (k : String) : Option α :=
  match m with
  | [] => none
  | (k1, v) :: rest => if k1 = k then some v else alGet rest k

/-- Membership test, embedding the Python expression k in d. -/
def alHas (m : List (String × α)) (k : String) : Bool :=
  (alGet m k).isSome

/-- Assignment d[k] = v: update in place when present, append when fresh. -/
def alSet (m : List (String × α)) (k : String) (v : α) : List (String × α) :=
  match m with
  | [] => [(k, v)]
  | (k1, v1) :: rest => if k1 = k then (k1, v) :: rest else (k1, v1) :: alSet rest k v

/-- Removal of a key, as performed by dict.pop on a present key.  A Python
dict never holds two bindings of one key, so removing every binding of the
key is the faithful embedding on the association lists that arise. -/
def alDel (m : List (String × α)) (k : String) : List (String × α) :=
  match m with
  | [] => []
  | (k1, v1) :: rest => if k1 = k then alDel rest k else (k1, v1) :: alDel rest k

/-! ## Solving method and status (model.py / result.py) -/

/-- Embedding of the Method enum of model.py. -/
inductive Method where
  | SATISFY
  | MINIMIZE
  | MAXIMIZE
  deriving DecidableEq, Repr

/-- Embedding of the Status enum of result.py. -/
inductive Status where
  | ERROR
  | UNKNOWN
  | UNBOUNDED
  | UNSATISFIABLE
  | SATISFIED
  | ALL_SOLUTIONS
  | OPTIMAL_SOLUTION
  deriving DecidableEq, Repr

/-- Numeric value of each Status member in the source enum; the spec orders
the members by informativeness in exactly this order. -/
def Status.enumVal : Status → Nat
  | .ERROR => 0
  | .UNKNOWN => 1
  | .UNBOUNDED => 2
  | .UNSATISFIABLE => 3
  | .SATISFIED => 4
  | .ALL_SOLUTIONS => 5
  | .OPTIMAL_SOLUTION => 6

/-- Status a is more specific (more informative) than status b, in the order
the spec gives in its data model section. -/
def Status.moreSpecific (a b : Status) : Bool :=
  b.enumVal < a.enumVal

/-- Embedding of Status.has_solution of result.py. -/
def Status.has_solution : Status → Bool
  | .SATISFIED => true
  | .ALL_SOLUTIONS => true
  | .OPTIMAL_SOLUTION => true
  | _ => false

/-- Embedding of Status.from_output of result.py: scan the legacy textual
output for end-of-search banners, conditioning the search-complete marker on
the declared solving method. -/
def Status.from_output (output : PyBytes) (method : Method) : Status :=
  if bytesContains output (strBytes "=====ERROR=====") then .ERROR
  else if bytesContains output (strBytes "=====UNKNOWN=====") then .UNKNOWN
  else if bytesContains output (strBytes "=====UNSATISFIABLE=====") then .UNSATISFIABLE
  else if bytesContains output (strBytes "=====UNSATorUNBOUNDED=====")
       || bytesContains output (strBytes "=====UNBOUNDED=====") then .UNBOUNDED
  else if method = .SATISFY then
    if bytesContains output (strBytes "==========") then .ALL_SOLUTIONS
    else if bytesContains output (strBytes "----------") then .SATISFIED
    else .UNKNOWN
  else
    if bytesContains output (strBytes "==========") then .OPTIMAL_SOLUTION
    else if bytesContains output (strBytes "----------") then .SATISFIED
    else .UNKNOWN

/-! ## Python numeric conversions

Python floats are embedded as exact unreduced fractions.  None of the
properties under study depends on binary floating-point rounding: every
comparison made by the embedded code is between values produced by the same
parse, and the decimal literals at issue are exact in this representation. -/

/-- Exact fraction embedding a Python float: numerator and positive power-of-ten
denominator, kept unreduced so that the kernel can evaluate all arithmetic. -/
structure PyFloat where
  num : Int
  den : Nat
  deriving DecidableEq, Repr

/-- Multiplication of a float by a natural constant, as in the expression
float(value) * 1000000. -/
def PyFloat.scale (f : PyFloat) (n : Nat) : PyFloat :=
  ⟨f.num * n, f.den⟩

/-- Embedding of Python int() applied to a float value: truncation toward
zero (Int division in Lean truncates toward zero as well). -/
def pyTruncF (f : PyFloat) : Int :=
  f.num / (f.den : Int)

/-- Decidable equality on Except values, by cases on the two constructors. -/
instance [DecidableEq ε] [DecidableEq α] : DecidableEq (Except ε α) := fun x y =>
  match x, y with
  | .ok a, .ok b => if h : a = b then .isTrue (by rw [h]) else .isFalse (by simp [h])
  | .error a, .error b => if h : a = b then .isTrue (by rw [h]) else .isFalse (by simp [h])
  | .ok _, .error _ => .isFalse (by simp)
  | .error _, .ok _ => .isFalse (by simp)

/-- Digit test on a character. -/
def isDigitChar (c : Char) : Bool :=
  48 ≤ c.toNat && c.toNat ≤ 57

/-- Numeric value of a list of ASCII digit characters. -/
def digitsVal (cs : List Char) : Nat :=
  cs.foldl (fun a c => 10 * a + (c.toNat - 48)) 0

/-- Whitespace test on a character (the ASCII whitespace stripped by int() and
float() around their argument). -/
def isSpaceChar (c : Char) : Bool :=
  isPySpace c.toNat

/-- Strip leading and trailing whitespace from a character list. -/
def stripChars (cs : List Char) : List Char :=
  ((cs.dropWhile isSpaceChar).reverse.dropWhile isSpaceChar).reverse

/-- Embedding of the Python int(str) conversion: optional sign followed by at
least one digit, surrounded by optional whitespace; none on ValueError.
(Underscore digit separators are not modelled.) -/
def pyIntParse (s : String) : Option Int :=
  let cs := stripChars s.data
  let (neg, ds) : Bool × List Char :=
    match cs with
    | c :: rest => if c = Char.ofNat 45 then (true, rest)
                   else if c = Char.ofNat 43 then (false, rest)
                   else (false, cs)
    | [] => (false, [])
  if ds ≠ [] ∧ ds.all isDigitChar then
    some (if neg then -(digitsVal ds : Int) else (digitsVal ds : Int))
  else none

/-- Embedding of the Python float(str) conversion on decimal literals:
optional sign, digits with an optional fractional part (at least one digit in
total), and an optional decimal exponent; none on ValueError.  (The inf and
nan spellings are not modelled; no statistic at issue uses them.) -/
def pyFloatParse (s : String) : Option PyFloat :=
  let cs := stripChars s.data
  let (neg, cs1) : Bool × List Char :=
    match cs with
    | c :: rest => if c = Char.ofNat 45 then (true, rest)
                   else if c = Char.ofNat 43 then (false, rest)
                   else (false, cs)
    | [] => (false, [])
  let ip := cs1.takeWhile isDigitChar
  let cs2 := cs1.drop ip.length
  let (fp, cs3) : List Char × List Char :=
    match cs2 with
    | c :: rest => if c = Char.ofNat 46 then
                     (rest.takeWhile isDigitChar, rest.drop (rest.takeWhile isDigitChar).length)
                   else ([], cs2)
    | [] => ([], [])
  if ip.length + fp.length = 0 then none
  else
    let mnum : Int := digitsVal ip * 10 ^ fp.length + digitsVal fp
    let mant : PyFloat := ⟨if neg then -mnum else mnum, 10 ^ fp.length⟩
    match cs3 with
    | [] => some mant
    | e :: rest =>
      if e = Char.ofNat 101 ∨ e = Char.ofNat 69 then
        let (eneg, eds) : Bool × List Char :=
          match rest with
          | c :: r2 => if c = Char.ofNat 45 then (true, r2)
                       else if c = Char.ofNat 43 then (false, r2)
                       else (false, rest)
          | [] => (false, [])
        if eds ≠ [] ∧ eds.all isDigitChar then
          if eneg then some ⟨mant.num, mant.den * 10 ^ digitsVal eds⟩
          else some ⟨mant.num * (10 : Int) ^ digitsVal eds, mant.den⟩
        else none
      else none

/-- Values stored in the embedded Python dicts (statistics, assignments).
A timedelta is represented by its exact length in microseconds, which is the
resolution datetime.timedelta normalises to. -/
inductive PyVal where
  | vInt (i : Int)
  | vFloat (f : PyFloat)
  | vStr (s : String)
  | vBool (b : Bool)
  | vDur (usec : Int)
  deriving DecidableEq, Repr

/-- Python types appearing as values of the StatisticTypes dictionary. -/
inductive PyType where
  | pyInt
  | pyFloat
  | pyStr
  | pyTimedelta
  deriving DecidableEq, Repr

/-- Embedding of Result.StatisticTypes of result.py: the well-known statistic
names and their declared types. -/
def StatisticTypes : List (String × PyType) :=
  [("nodes", .pyInt), ("failures", .pyInt), ("restarts", .pyInt),
   ("variables", .pyInt), ("intVariables", .pyInt), ("boolVariables", .pyInt),
   ("floatVariables", .pyInt), ("setVariables", .pyInt), ("propagators", .pyInt),
   ("propagations", .pyInt), ("peakDepth", .pyInt), ("nogoods", .pyInt),
   ("backjumps", .pyInt), ("peakMem", .pyFloat),
   ("initTime", .pyTimedelta), ("solveTime", .pyTimedelta)]

/-- Embedding of Result.set_stat of result.py (the effect on the stats dict):
look the name up in StatisticTypes with default type str; a timedelta-typed
value is parsed as a float and stored as int(float(value) * 1000000)
microseconds, any other name is stored by applying its type to the raw
string — so an unknown name stores the raw string itself. -/
def Result.set_stat (stats : List (String × PyVal)) (name value : String) :
    Except PyExn (List (String × PyVal)) :=
  let tt := (alGet StatisticTypes name).getD .pyStr
  match tt with
  | .pyTimedelta =>
    match pyFloatParse value with
    | none => .error .valueError
    | some q => .ok (alSet stats name (.vDur (pyTruncF (q.scale 1000000))))
  | .pyInt =>
    match pyIntParse value with
    | none => .error .valueError
    | some i => .ok (alSet stats name (.vInt i))
  | .pyFloat =>
    match pyFloatParse value with
    | none => .error .valueError
    | some q => .ok (alSet stats name (.vFloat q))
  | .pyStr => .ok (alSet stats name (.vStr value))

/-! ## The legacy percent-time marker (both revisions of Result.from_process) -/

/-- Digit test on a byte. -/
def isDigitByte (b : Nat) : Bool :=
  48 ≤ b && b ≤ 57

/-- Match the regex group of digits, any byte, digits, followed by the literal
space and letter s, at the start of the byte list, with the greedy
backtracking the re module performs on the first digit run; the second digit
run is followed by a non-digit so its maximal run is the only candidate.
Returns the bytes matched by the parenthesised group. -/
def matchElapsedNum (bs : PyBytes) : Option PyBytes :=
  let d1max := (bs.takeWhile isDigitByte).length
  (List.range d1max).findSome? fun k =>
    let d1len := d1max - k
    if d1len = 0 then none
    else
      match bs.drop d1len with
      | [] => none
      | _ :: rest2 =>
        let d2len := (rest2.takeWhile isDigitByte).length
        if d2len = 0 then none
        else if (rest2.drop d2len).take 2 = [32, 115] then
          some (bs.take (d1len + 1 + d2len))
        else none

/-- Embedding of the re.search call for the time-elapsed marker used by both
revisions of Result.from_process: leftmost occurrence of the literal prefix
followed by a match of the parenthesised group; returns that group. -/
def scanTimeElapsed : PyBytes → Option PyBytes
  | [] => none
  | b :: rest =>
    if (strBytes "% time elapsed: ").isPrefixOf (b :: rest) then
      match matchElapsedNum ((b :: rest).drop (strBytes "% time elapsed: ").length) with
      | some num => some num
      | none => scanTimeElapsed rest
    else scanTimeElapsed rest

/-- Embedding of the time-elapsed handling in Result.from_process of the
current revision (src/src/minizinc/result.py): when the marker is present the
solution statistics store timedelta(microseconds=int(float(match) * 1000000)). -/
def from_process_time_stat (raw_sol : PyBytes) : Except PyExn (Option PyVal) :=
  match scanTimeElapsed raw_sol with
  | none => .ok none
  | some num =>
    match pyFloatParse (bytesToString num) with
    | none => .error .valueError
    | some q => .ok (some (.vDur (pyTruncF (q.scale 1000000))))

/-- Embedding of the time-elapsed handling in Result.from_process of the early
revision (src/minizinc/result.py): the same number of microseconds is computed
into time_us, but the stored value is timedelta(milliseconds=time_us), which
is 1000 * time_us microseconds. -/
def from_process_time_v0 (raw_sol : PyBytes) : Except PyExn (Option PyVal) :=
  match scanTimeElapsed raw_sol with
  | none => .ok none
  | some num =>
    match pyFloatParse (bytesToString num) with
    | none => .error .valueError
    | some q => .ok (some (.vDur (1000 * pyTruncF (q.scale 1000000))))

/-! ## The Result class of result.py (solutions and item access) -/

/-- Embedding of the Solution named tuple of result.py. -/
structure Solution where
  assignments : List (String × PyVal)
  objective : Option PyVal
  statistics : List (String × PyVal)
  deriving DecidableEq, Repr

/-- Keys passed to the item-access methods: either a member name string or a
numeric index. -/
inductive PyKey where
  | str (s : String)
  | idx (i : Int)
  deriving DecidableEq, Repr

/-- Item lookup results for Solution: a value from the assignments dict, or a
positional named-tuple field (0 assignments, 1 objective, 2 statistics). -/
inductive SolutionItem where
  | value (v : PyVal)
  | tupleField (pos : Nat)
  deriving DecidableEq, Repr

/-- Embedding of Python list indexing, including negative indices; IndexError
when out of range. -/
def pyListGet (l : List α) (i : Int) : Except PyExn α :=
  let j : Int := if i < 0 then i + l.length else i
  if j < 0 then .error .indexError
  else
    match l.get? j.toNat with
    | some a => .ok a
    | none => .error .indexError

/-- Embedding of Solution.__getitem__ of result.py: a string key is looked up
directly in the assignments dict (KeyError when absent); any other key uses
the named-tuple positional access. -/
def Solution.getitem (sol : Solution) (key : PyKey) : Except PyExn SolutionItem :=
  match key with
  | .str s =>
    match alGet sol.assignments s with
    | some v => .ok (.value v)
    | none => .error .keyError
  | .idx i => (pyListGet [SolutionItem.tupleField 0, .tupleField 1, .tupleField 2] i)

/-- Embedding of the Result class of result.py (the fields item access
depends on; _solutions is the internal solution list). -/
structure Result where
  status : Status
  access_all : Bool
  solutions : List Solution
  stats : List (String × PyVal)

/-- Item lookup results for Result: a whole stored Solution (access_all) or an
item of the last solution. -/
inductive ResultItem where
  | solution (s : Solution)
  | item (si : SolutionItem)
  deriving DecidableEq, Repr

/-- Embedding of Result.__getitem__ of result.py: without a solution-bearing
status it always raises KeyError; with access_all the key indexes the internal
solution list; otherwise the key is resolved against the last stored
solution. -/
def Result.getitem (r : Result) (key : PyKey) : Except PyExn ResultItem :=
  if r.status.has_solution then
    if r.access_all then
      match key with
      | .idx i => (pyListGet r.solutions i).map .solution
      | .str _ => .error .typeError
    else
      match pyListGet r.solutions (-1) with
      | .ok sol => (sol.getitem key).map .item
      | .error e => .error e
  else .error .keyError

/-! ## Stream objects of the structured (json-stream) protocol

A parsed newline-delimited JSON object, discriminated by its type field as in
json.py and Instance._parse_stream_obj.  Two embeddings follow the spec where
the source tree lacks the cited code: a status message carries a Status value
directly (instance.py calls Status.from_str, which the result.py revision in
this tree predates; per the spec a StatusMarker carries a Status which the
resolver adopts directly), and statistics entries carry the string rendering
of their JSON value (the loop applies str before set_stat). -/
inductive StreamObj where
  | solution (fields : List (String × PyVal)) (time : Int)
  | timeMsg (ms : Int)
  | statisticsMsg (entries : List (String × String))
  | statusMsg (s : Status)
  | checkerMsg (output : String)
  | errorMsg (what : String) (message : String)
  | warningMsg (message : String)
  | otherMsg
  deriving DecidableEq, Repr

/-- Classification test of json.py: the object has type warning, or type
error with what equal to warning (the second disjunct is only evaluated for
error objects, which always carry a what field). -/
def objIsWarning : StreamObj → Bool
  | .warningMsg _ => true
  | .errorMsg what _ => what = "warning"
  | _ => false

/-- Classification test of json.py: any other object of type error, which is
converted by error_from_stream_obj and raised. -/
def objIsError : StreamObj → Bool
  | .errorMsg what _ => what ≠ "warning"
  | _ => false

/-- The message field consulted by warnings.warn (warning and error objects
always carry one). -/
def objMessage : StreamObj → String
  | .warningMsg m => m
  | .errorMsg _ m => m
  | _ => ""

/-- Events produced by the decoders of json.py in stream order: a warning
issued through warnings.warn, or a yielded object. -/
inductive DecEvent where
  | warn (message : String)
  | yielded (obj : StreamObj)
  deriving DecidableEq, Repr

/-- Complete observable behaviour of one decoder run: the events in order and,
when decoding raised on an error object, that object. -/
structure DecodeOut where
  events : List DecEvent
  raised : Option StreamObj
  deriving DecidableEq, Repr

/-- Prepend an event to a decoder run. -/
def DecodeOut.cons (e : DecEvent) (d : DecodeOut) : DecodeOut :=
  ⟨e :: d.events, d.raised⟩

/-- Shared per-line body of both decoders in json.py, applied to the list of
newline-separated segments: strip the line, skip it when empty, otherwise
parse it (the loads argument embeds json.loads with the MZNJSONDecoder object
hook on a valid JSON line) and classify the object. -/
def processLines (loads : PyBytes → StreamObj) : List PyBytes → DecodeOut
  | [] => ⟨[], none⟩
  | l :: rest =>
    let s := pyStrip l
    if s = [] then processLines loads rest
    else
      let obj := loads s
      if objIsWarning obj then .cons (.warn (objMessage obj)) (processLines loads rest)
      else if objIsError obj then ⟨[], some obj⟩
      else .cons (.yielded obj) (processLines loads rest)

/-- Embedding of decode_json_stream of json.py: split the whole blob on
newline bytes and process every segment. -/
def decode_json_stream (loads : PyBytes → StreamObj) (byte_stream : PyBytes) : DecodeOut :=
  processLines loads (splitNL byte_stream)

/-- Embedding of decode_async_json_stream of json.py, driven by an explicit
delivery schedule.  The asyncio StreamReader is modelled by the undelivered
byte suffix; at each loop iteration readuntil either returns everything
through the first newline (it can only raise IncompleteReadError when the
stream contents do not end in a newline, which the chunking-invariance
hypothesis excludes), or raises LimitOverrunError whose consumed count is a
positive number of bytes none of which is a newline — the bytes the code
then takes with readexactly and appends to its carried buffer.  The schedule
entry for the iteration selects which happens: min of the entry and the
distance to the next newline gives the consumed count, zero meaning a
successful readuntil; every behaviour the event loop and buffer limit can
produce is some schedule.  The fuel argument is the recursion bound; the
wrapper passes the stream length, which the loop never exhausts since every
iteration consumes at least one byte. -/
def decodeAsyncGo (loads : PyBytes → StreamObj) :
    Nat → PyBytes → PyBytes → List Nat → DecodeOut
  | 0, _, _, _ => ⟨[], none⟩
  | fuel + 1, buffer, remaining, sched =>
    if remaining = [] then ⟨[], none⟩
    else
      let j := firstNL remaining
      let c := min (sched.headD 0) j
      if c = 0 then
        let buf := pyStrip (buffer ++ remaining.take (j + 1))
        let rest := remaining.drop (j + 1)
        if buf = [] then decodeAsyncGo loads fuel [] rest sched.tail
        else
          let obj := loads buf
          if objIsWarning obj then
            .cons (.warn (objMessage obj)) (decodeAsyncGo loads fuel [] rest sched.tail)
          else if objIsError obj then ⟨[], some obj⟩
          else .cons (.yielded obj) (decodeAsyncGo loads fuel [] rest sched.tail)
      else
        decodeAsyncGo loads fuel (buffer ++ remaining.take c) (remaining.drop c) sched.tail

/-- The async decoder on a whole delivered stream: empty carried buffer and
fuel equal to the stream length. -/
def decode_async_json_stream (loads : PyBytes → StreamObj) (blob : PyBytes)
    (sched : List Nat) : DecodeOut :=
  decodeAsyncGo loads blob.length [] blob sched

/-! ## The structured-protocol session loop of Instance.solutions -/

/-- Modelled from the spec: instance.py builds the Results it yields with a
three-argument constructor from a result.py revision that is not in this
source tree; per the spec a Result is a record of status, an optional
solution, and the statistics flushed with it. -/
structure StreamResult where
  status : Status
  solution : Option (List (String × PyVal))
  statistics : List (String × PyVal)
  deriving DecidableEq, Repr

/-- Modelled from the spec: instance.py imports a module-level set_stat that
the result.py revision in this tree predates.  Per the spec, well-known names
keep their declared StatisticTypes type, durations are stored with
microsecond precision parsed from fractional seconds, and unknown statistic
names use the speculative parse order int, then float, then the raw string,
first successful parse wins. -/
def set_stat (stats : List (String × PyVal)) (name value : String) :
    Except PyExn (List (String × PyVal)) :=
  match alGet StatisticTypes name with
  | some .pyTimedelta =>
    match pyFloatParse value with
    | none => .error .valueError
    | some q => .ok (alSet stats name (.vDur (pyTruncF (q.scale 1000000))))
  | some .pyInt =>
    match pyIntParse value with
    | none => .error .valueError
    | some i => .ok (alSet stats name (.vInt i))
  | some .pyFloat =>
    match pyFloatParse value with
    | none => .error .valueError
    | some q => .ok (alSet stats name (.vFloat q))
  | some .pyStr => .ok (alSet stats name (.vStr value))
  | none =>
    match pyIntParse value with
    | some i => .ok (alSet stats name (.vInt i))
    | none =>
      match pyFloatParse value with
      | some q => .ok (alSet stats name (.vFloat q))
      | none => .ok (alSet stats name (.vStr value))

/-- One entry of the keyword-rename loop in Instance._parse_stream_obj:
the statement tmp[after] = tmp.pop(before), where dict.pop without a default
raises KeyError when the key is absent. -/
def renameField (tmp : List (String × PyVal)) (before after : String) :
    Except PyExn (List (String × PyVal)) :=
  match alGet tmp before with
  | none => .error .keyError
  | some v => .ok (alSet (alDel tmp before) after v)

/-- The keyword-rename loop of Instance._parse_stream_obj over the whole
session rename table (Instance._field_renames, collected once by analyse). -/
def applyRenames (renames : List (String × String)) (tmp : List (String × PyVal)) :
    Except PyExn (List (String × PyVal)) :=
  match renames with
  | [] => .ok tmp
  | (before, after) :: rest =>
    match renameField tmp before after with
    | .error e => .error e
    | .ok tmp2 => applyRenames rest tmp2

/-- Fold of the statistics branch of _parse_stream_obj over the entries of a
statistics object. -/
def setStatsList (stats : List (String × PyVal)) :
    List (String × String) → Except PyExn (List (String × PyVal))
  | [] => .ok stats
  | (k, v) :: rest =>
    match set_stat stats k v with
    | .error e => .error e
    | .ok stats2 => setStatsList stats2 rest

/-- The two reserved-key moves at the start of the solution branch of
Instance._parse_stream_obj: the key _objective is renamed to objective and the
key _output to _output_item, each only when present. -/
def solutionFieldMoves (fields : List (String × PyVal)) : List (String × PyVal) :=
  let tmp := fields
  let tmp :=
    match alGet tmp "_objective" with
    | some v => alSet (alDel tmp "_objective") "objective" v
    | none => tmp
  match alGet tmp "_output" with
  | some v => alSet (alDel tmp "_output") "_output_item" v
  | none => tmp

/-- Embedding of Instance._parse_stream_obj: returns the optional solution
field map, the optional new status, and the updated statistics dict.  The
solution value is the final field map itself (the source instantiates the
session output_type dataclass on it; the spec models that as a schema-driven
record of the same fields).  A timedelta built from whole milliseconds equals
1000 times that many microseconds. -/
def parse_stream_obj (renames : List (String × String)) (obj : StreamObj)
    (statistics : List (String × PyVal)) :
    Except PyExn (Option (List (String × PyVal)) × Option Status × List (String × PyVal)) :=
  match obj with
  | .solution fields t =>
    match applyRenames renames (solutionFieldMoves fields) with
    | .error e => .error e
    | .ok tmp2 =>
      let moved :=
        match alGet statistics "_checker" with
        | some v => (alSet tmp2 "_checker" v, alDel statistics "_checker")
        | none => (tmp2, statistics)
      .ok (some moved.1, none, alSet moved.2 "time" (.vDur (1000 * t)))
  | .timeMsg ms => .ok (none, none, alSet statistics "time" (.vDur (1000 * ms)))
  | .statisticsMsg entries =>
    match setStatsList statistics entries with
    | .error e => .error e
    | .ok stats2 => .ok (none, none, stats2)
  | .statusMsg s => .ok (none, some s, statistics)
  | .checkerMsg out => .ok (none, none, alSet statistics "_checker" (.vStr out))
  | .errorMsg _ _ => .ok (none, none, statistics)
  | .warningMsg _ => .ok (none, none, statistics)
  | .otherMsg => .ok (none, none, statistics)

/-- The mutable state of the decode loop in Instance.solutions. -/
structure SessionState where
  status : Status
  last_status : Status
  statistics : List (String × PyVal)
  deriving DecidableEq, Repr

/-- How a decode loop run can abort: a MiniZincError raised by the decoder on
an error object, or an unexpected Python exception from the loop body; in
both cases the except clause of Instance.solutions terminates the subprocess
and re-raises. -/
inductive SessionAbort where
  | decodeError (obj : StreamObj)
  | pyExn (e : PyExn)
  deriving DecidableEq, Repr

/-- Observable behaviour of one decode loop: yielded Results, warnings, final
loop state, and an optional abort. -/
structure LoopOut where
  yielded : List StreamResult
  warns : List String
  state : SessionState
  abort : Option SessionAbort
  deriving DecidableEq, Repr

/-- Embedding of the live structured decode loop of Instance.solutions
(the async for over decode_async_json_stream): warnings pass through, an
error object aborts, a status message replaces the tracked status, a decoded
solution is yielded after upgrading an UNKNOWN status to SATISFIED, with
last_status updated and the statistics buffer cleared after the yield. -/
def liveLoop (renames : List (String × String)) (st : SessionState) :
    List StreamObj → LoopOut
  | [] => ⟨[], [], st, none⟩
  | obj :: rest =>
    if objIsWarning obj then
      let o := liveLoop renames st rest
      ⟨o.yielded, objMessage obj :: o.warns, o.state, o.abort⟩
    else if objIsError obj then ⟨[], [], st, some (.decodeError obj)⟩
    else
      match parse_stream_obj renames obj st.statistics with
      | .error e => ⟨[], [], st, some (.pyExn e)⟩
      | .ok (sol, newStatus, stats) =>
        match newStatus with
        | some s => liveLoop renames ⟨s, st.last_status, stats⟩ rest
        | none =>
          match sol with
          | some fields =>
            let s1 := if st.status = .UNKNOWN then Status.SATISFIED else st.status
            let o := liveLoop renames ⟨s1, s1, []⟩ rest
            ⟨⟨s1, some fields, stats⟩ :: o.yielded, o.warns, o.state, o.abort⟩
          | none => liveLoop renames ⟨st.status, st.last_status, stats⟩ rest

/-- Embedding of the end-of-stream salvage pass of Instance.solutions (the
sync decode of the IncompleteReadError remainder): identical to the live loop
except that yielding does not update last_status. -/
def salvageLoop (renames : List (String × String)) (st : SessionState) :
    List StreamObj → LoopOut
  | [] => ⟨[], [], st, none⟩
  | obj :: rest =>
    if objIsWarning obj then
      let o := salvageLoop renames st rest
      ⟨o.yielded, objMessage obj :: o.warns, o.state, o.abort⟩
    else if objIsError obj then ⟨[], [], st, some (.decodeError obj)⟩
    else
      match parse_stream_obj renames obj st.statistics with
      | .error e => ⟨[], [], st, some (.pyExn e)⟩
      | .ok (sol, newStatus, stats) =>
        match newStatus with
        | some s => salvageLoop renames ⟨s, st.last_status, stats⟩ rest
        | none =>
          match sol with
          | some fields =>
            let s1 := if st.status = .UNKNOWN then Status.SATISFIED else st.status
            let o := salvageLoop renames ⟨s1, st.last_status, []⟩ rest
            ⟨⟨s1, some fields, stats⟩ :: o.yielded, o.warns, o.state, o.abort⟩
          | none => salvageLoop renames ⟨st.status, st.last_status, stats⟩ rest

/-- How a whole session run ends, as seen by the caller of the generator. -/
inductive SessionOutcome where
  /-- The generator completes normally. -/
  | normal
  /-- The MiniZincError converted from an error object is re-raised after the
  subprocess is terminated; no stderr drain is awaited and no further Result
  is yielded. -/
  | raisedDecode (obj : StreamObj)
  /-- An unexpected Python exception from the loop body is re-raised. -/
  | raisedPy (e : PyExn)
  /-- parse_error applied to the drained stderr is raised. -/
  | raisedParse (stderr : PyBytes)
  deriving DecidableEq, Repr

/-- Observable behaviour of a whole session run. -/
structure SessionTrace where
  yielded : List StreamResult
  warns : List String
  outcome : SessionOutcome
  deriving DecidableEq, Repr

/-- Outcome recorded when a decode loop aborts (the except clause of
Instance.solutions terminates the process, awaits it, and re-raises). -/
def abortOutcome : SessionAbort → SessionOutcome
  | .decodeError obj => .raisedDecode obj
  | .pyExn e => .raisedPy e

/-- The tail of Instance.solutions after the decode loops: yield one trailing
Result when the status changed since the last yield or statistics remain,
then raise parse_error on the drained stderr when the exit code is non-zero
or the resolved status is ERROR. -/
def sessionFinish (yielded : List StreamResult) (warns : List String)
    (st : SessionState) (code : Int) (stderr : PyBytes) : SessionTrace :=
  let yielded2 :=
    if st.status ≠ st.last_status ∨ st.statistics ≠ [] then
      yielded ++ [⟨st.status, none, st.statistics⟩]
    else yielded
  if code ≠ 0 ∨ st.status = .ERROR then ⟨yielded2, warns, .raisedParse stderr⟩
  else ⟨yielded2, warns, .normal⟩

/-- Embedding of one whole run of the structured branch of Instance.solutions:
the live decode loop over the delivered objects, then, when the stream ended
without a final newline (IncompleteReadError), the salvage pass over the
objects decoded from the remainder, then the trailing-Result and error-raise
tail.  A decode-loop abort skips the tail entirely: the process is terminated
and the error re-raised at once. -/
def sessionRun (renames : List (String × String)) (live : List StreamObj)
    (salvage : Option (List StreamObj)) (code : Int) (stderr : PyBytes) : SessionTrace :=
  let o1 := liveLoop renames ⟨.UNKNOWN, .UNKNOWN, []⟩ live
  match o1.abort with
  | some ab => ⟨o1.yielded, o1.warns, abortOutcome ab⟩
  | none =>
    match salvage with
    | none => sessionFinish o1.yielded o1.warns o1.state code stderr
    | some objs =>
      let o2 := salvageLoop renames o1.state objs
      match o2.abort with
      | some ab => ⟨o1.yielded ++ o2.yielded, o1.warns ++ o2.warns, abortOutcome ab⟩
      | none => sessionFinish (o1.yielded ++ o2.yielded) (o1.warns ++ o2.warns) o2.state code stderr

/-! ## Error classification (error.py) -/

/-- Embedding of the Location dataclass of error.py: a file path, a tuple of
lines, and a tuple of columns.  The dataclass defines the fields file, lines
and columns — it has no attribute named line. -/
structure Location where
  file : String
  lines : Nat × Nat
  columns : Nat × Nat
  deriving DecidableEq, Repr

/-- The MiniZincError subclasses of error.py that parse_error can select. -/
inductive MZErrorKind where
  | miniZincError
  | evaluationError
  | assertionError
  | typeError
  | syntaxError
  deriving DecidableEq, Repr

/-- Embedding of a MiniZincError value: its class, location and message. -/
structure MiniZincError where
  kind : MZErrorKind
  location : Option Location
  message : String
  deriving DecidableEq, Repr

/-- Numeric value of a run of ASCII digit bytes. -/
def digitsValB (bs : PyBytes) : Nat :=
  bs.foldl (fun a b => 10 * a + (b - 48)) 0

/-- Match the tail of the location regex after the line digits: an optional
group of any byte, digits, a hyphen and digits, then a colon and a whitespace
byte.  The group is tried first, as the regex question mark is greedy; the
two digit runs inside it are each followed by a non-digit in the pattern, so
their maximal runs are the only candidates the backtracking search can
accept.  Returns the column pair when the group matched. -/
def matchLocTail (rest : PyBytes) : Option (Option (Nat × Nat)) :=
  let present : Option (Nat × Nat) :=
    match rest with
    | [] => none
    | _ :: r1 =>
      let d2 := r1.takeWhile isDigitByte
      if d2.length = 0 then none
      else
        match r1.drop d2.length with
        | 45 :: r2 =>
          let d3 := r2.takeWhile isDigitByte
          if d3.length = 0 then none
          else
            match r2.drop d3.length with
            | 58 :: w :: _ => if isPySpace w then some (digitsValB d2, digitsValB d3) else none
            | _ => none
        | _ => none
  match present with
  | some cols => some (some cols)
  | none =>
    match rest with
    | 58 :: w :: _ => if isPySpace w then some none else none
    | _ => none

/-- Match the location regex of parse_error at a fixed starting point: a
non-empty run of non-whitespace bytes, a colon, line digits, and the regex
tail.  The token and the line digits backtrack from longest to shortest as
the re module does with its greedy plus quantifiers. -/
def matchLocAt (tail : PyBytes) : Option Location :=
  let tokMax := (tail.takeWhile (fun b => !isPySpace b)).length
  (List.range tokMax).findSome? fun k =>
    let tl := tokMax - k
    if tl = 0 then none
    else
      match tail.drop tl with
      | 58 :: r1 =>
        let d1max := (r1.takeWhile isDigitByte).length
        (List.range d1max).findSome? fun k2 =>
          let dl := d1max - k2
          if dl = 0 then none
          else
            match matchLocTail (r1.drop dl) with
            | some cols =>
              let line := digitsValB (r1.take dl)
              some ⟨bytesToString (tail.take tl), (line, line), cols.getD (0, 0)⟩
            | none => none
      | _ => none

/-- Embedding of the re.search call of parse_error: the leftmost starting
point with a match of the location regex wins. -/
def scanLocation (bs : PyBytes) : Option Location :=
  (List.range bs.length).findSome? fun s => matchLocAt (bs.drop s)

/-- Embedding of parse_error of error.py over an abstract read-only file
system (mapping a path to its lines when the file exists and is readable).
The error class is selected by substring tests on the stderr text, the
location by the regex scan, and the message is the stripped decoded text
(with a fixed fallback when empty).  When a location was found and its file
exists, the source enters the fragment-rendering branch, whose very first
statement reads the attribute location.line — an attribute the Location
dataclass does not define (its field is the tuple lines) — so that branch
raises AttributeError instead of returning. -/
def parse_error (fs : String → Option (List String)) (error_txt : PyBytes) :
    Except PyExn MiniZincError :=
  let kind : MZErrorKind :=
    if bytesContains error_txt (strBytes "MiniZinc: evaluation error:") then
      if bytesContains error_txt (strBytes "Assertion failed:") then .assertionError
      else .evaluationError
    else if bytesContains error_txt (strBytes "MiniZinc: type error:") then .typeError
    else if bytesContains error_txt (strBytes "Error: syntax error") then .syntaxError
    else .miniZincError
  let location := scanLocation error_txt
  let message := bytesToString (pyStrip error_txt)
  if message = "" then
    .ok ⟨kind, location,
      "MiniZinc stopped with a non-zero exit code, but did not output an error message. "⟩
  else
    match location with
    | some loc =>
      if (fs loc.file).isSome then .error .attributeError
      else .ok ⟨kind, some loc, message⟩
    | none => .ok ⟨kind, none, message⟩

/-- The combined abort of the decode loops of one session run: none exactly
when the run reaches the end of its decode loop (including the salvage pass)
and so falls through to the trailing-Result and error-raise tail. -/
def sessionDecodeAbort (renames : List (String × String)) (live : List StreamObj)
    (salvage : Option (List StreamObj)) : Option SessionAbort :=
  let o1 := liveLoop renames ⟨.UNKNOWN, .UNKNOWN, []⟩ live
  match o1.abort with
  | some ab => some ab
  | none =>
    match salvage with
    | none => none
    | some objs => (salvageLoop renames o1.state objs).abort

/-- The loop state at the end of the decode loops of one session run (the
state the trailing-Result yield and the raise condition inspect). -/
def sessionFinalState (renames : List (String × String)) (live : List StreamObj)
    (salvage : Option (List StreamObj)) : SessionState :=
  let o1 := liveLoop renames ⟨.UNKNOWN, .UNKNOWN, []⟩ live
  match salvage with
  | none => o1.state
  | some objs => (salvageLoop renames o1.state objs).state

/-! ## Supporting lemmas -/

theorem alGet_alSet (m : List (String × α)) (k b : String) (v : α) :
    alGet (alSet m k v) b = if k = b then some v else alGet m b := by
  induction m with
  | nil => by_cases h : k = b <;> simp [alSet, alGet, h]
  | cons hd tl ih =>
    obtain ⟨k1, v1⟩ := hd
    by_cases h1 : k1 = k
    · subst h1
      simp only [alSet, if_pos rfl, alGet]
      by_cases h2 : k1 = b <;> simp [alGet, h2]
    · simp only [alSet, if_neg h1, alGet]
      by_cases h2 : k1 = b
      · subst h2
        have hk : ¬(k = k1) := fun h => h1 h.symm
        simp [alGet, hk]
      · simp [h2, ih]

theorem alGet_alDel (m : List (String × α)) (k b : String) :
    alGet (alDel m k) b = if k = b then none else alGet m b := by
  induction m with
  | nil => by_cases h : k = b <;> simp [alDel, alGet, h]
  | cons hd tl ih =>
    obtain ⟨k1, v1⟩ := hd
    by_cases h1 : k1 = k
    · subst h1
      simp only [alDel, if_pos rfl]
      by_cases h2 : k1 = b
      · subst h2; simp [ih]
      · simp [ih, alGet, h2]
    · simp only [alDel, if_neg h1, alGet]
      by_cases h2 : k1 = b
      · subst h2
        have hk : ¬(k = k1) := fun h => h1 h.symm
        simp [alGet, hk]
      · simp [h2, ih]

theorem pyListGet_neg_one (l : List α) (h : l ≠ []) :
    pyListGet l (-1) = .ok (l.getLast h) := by
  have hpos : 0 < l.length := List.length_pos.mpr h
  have h1 : ¬((-1 : Int) + l.length < 0) := by omega
  have h2 : ((-1 : Int) + l.length).toNat = l.length - 1 := by omega
  simp only [pyListGet, if_pos (by omega : (-1 : Int) < 0), if_neg h1, h2]
  rw [List.get?_eq_getElem?, ← List.getLast?_eq_getElem?, List.getLast?_eq_getLast l h]

/-! ## Claim theorems -/

/-- Claim C3: for every output byte string and declared method, Status.from_output
returns ERROR if the output contains the ERROR banner; otherwise UNKNOWN on the
UNKNOWN banner; otherwise UNSATISFIABLE on the UNSATISFIABLE banner; otherwise
UNBOUNDED on either unbounded banner; otherwise, with the search-complete marker
present, ALL_SOLUTIONS for SATISFY and OPTIMAL_SOLUTION for MINIMIZE or MAXIMIZE;
otherwise SATISFIED when the per-solution delimiter is present; otherwise
UNKNOWN. -/
theorem from_output_banner_mapping (output : PyBytes) (method : Method) :
    (bytesContains output (strBytes "=====ERROR=====") = true →
      Status.from_output output method = .ERROR) ∧
    (bytesContains output (strBytes "=====ERROR=====") = false →
     bytesContains output (strBytes "=====UNKNOWN=====") = true →
      Status.from_output output method = .UNKNOWN) ∧
    (bytesContains output (strBytes "=====ERROR=====") = false →
     bytesContains output (strBytes "=====UNKNOWN=====") = false →
     bytesContains output (strBytes "=====UNSATISFIABLE=====") = true →
      Status.from_output output method = .UNSATISFIABLE) ∧
    (bytesContains output (strBytes "=====ERROR=====") = false →
     bytesContains output (strBytes "=====UNKNOWN=====") = false →
     bytesContains output (strBytes "=====UNSATISFIABLE=====") = false →
     (bytesContains output (strBytes "=====UNSATorUNBOUNDED=====") = true ∨
      bytesContains output (strBytes "=====UNBOUNDED=====") = true) →
      Status.from_output output method = .UNBOUNDED) ∧
    (bytesContains output (strBytes "=====ERROR=====") = false →
     bytesContains output (strBytes "=====UNKNOWN=====") = false →
     bytesContains output (strBytes "=====UNSATISFIABLE=====") = false →
     bytesContains output (strBytes "=====UNSATorUNBOUNDED=====") = false →
     bytesContains output (strBytes "=====UNBOUNDED=====") = false →
     bytesContains output (strBytes "==========") = true →
     method = .SATISFY →
      Status.from_output output method = .ALL_SOLUTIONS) ∧
    (bytesContains output (strBytes "=====ERROR=====") = false →
     bytesContains output (strBytes "=====UNKNOWN=====") = false →
     bytesContains output (strBytes "=====UNSATISFIABLE=====") = false →
     bytesContains output (strBytes "=====UNSATorUNBOUNDED=====") = false →
     bytesContains output (strBytes "=====UNBOUNDED=====") = false →
     bytesContains output (strBytes "==========") = true →
     (method = .MINIMIZE ∨ method = .MAXIMIZE) →
      Status.from_output output method = .OPTIMAL_SOLUTION) ∧
    (bytesContains output (strBytes "=====ERROR=====") = false →
     bytesContains output (strBytes "=====UNKNOWN=====") = false →
     bytesContains output (strBytes "=====UNSATISFIABLE=====") = false →
     bytesContains output (strBytes "=====UNSATorUNBOUNDED=====") = false →
     bytesContains output (strBytes "=====UNBOUNDED=====") = false →
     bytesContains output (strBytes "==========") = false →
     bytesContains output (strBytes "----------") = true →
      Status.from_output output method = .SATISFIED) ∧
    (bytesContains output (strBytes "=====ERROR=====") = false →
     bytesContains output (strBytes "=====UNKNOWN=====") = false →
     bytesContains output (strBytes "=====UNSATISFIABLE=====") = false →
     bytesContains output (strBytes "=====UNSATorUNBOUNDED=====") = false →
     bytesContains output (strBytes "=====UNBOUNDED=====") = false →
     bytesContains output (strBytes "==========") = false →
     bytesContains output (strBytes "----------") = false →
      Status.from_output output method = .UNKNOWN) := by
  refine ⟨fun h1 => ?_, fun h1 h2 => ?_, fun h1 h2 h3 => ?_, fun h1 h2 h3 h4 => ?_,
    fun h1 h2 h3 h4 h5 h6 hm => ?_, fun h1 h2 h3 h4 h5 h6 hm => ?_,
    fun h1 h2 h3 h4 h5 h6 h7 => ?_, fun h1 h2 h3 h4 h5 h6 h7 => ?_⟩
  · simp [Status.from_output, h1]
  · simp [Status.from_output, h1, h2]
  · simp [Status.from_output, h1, h2, h3]
  · rcases h4 with h4 | h4 <;> simp [Status.from_output, h1, h2, h3, h4]
  · subst hm; simp [Status.from_output, h1, h2, h3, h4, h5, h6]
  · rcases hm with hm | hm <;> subst hm <;>
      simp [Status.from_output, h1, h2, h3, h4, h5, h6]
  · cases method <;> simp [Status.from_output, h1, h2, h3, h4, h5, h6, h7]
  · cases method <;> simp [Status.from_output, h1, h2, h3, h4, h5, h6, h7]

/-- Witness for claim C3: a concrete output containing only the ERROR banner is
mapped to ERROR. -/
theorem from_output_banner_mapping_witness :
    bytesContains (strBytes "=====ERROR=====") (strBytes "=====ERROR=====") = true ∧
    Status.from_output (strBytes "=====ERROR=====") .SATISFY = .ERROR :=
  ⟨by decide, (from_output_banner_mapping (strBytes "=====ERROR=====") .SATISFY).1 (by decide)⟩

/-- Counterexample to claim C5 as stated: the statistic name myStat is not in
StatisticTypes and the raw value parses as an int, yet Result.set_stat stores
the raw string, not the parsed int. -/
theorem set_stat_unknown_stores_raw_string :
    alGet StatisticTypes "myStat" = none ∧
    Result.set_stat [] "myStat" "42" = .ok [("myStat", PyVal.vStr "42")] ∧
    PyVal.vStr "42" ≠ PyVal.vInt 42 := by
  refine ⟨by decide, by decide, by decide⟩

/-- Claim C5 (amended): a statistic name in StatisticTypes is stored with its
declared type (int and float by parsing, timedelta as int(float(value)*1000000)
microseconds), while a name not in the dictionary is stored as the raw string —
Result.set_stat of this revision performs no speculative int-then-float
coercion on unknown names. -/
theorem set_stat_typed_storage (stats : List (String × PyVal)) (name value : String) :
    (alGet StatisticTypes name = none →
      Result.set_stat stats name value = .ok (alSet stats name (.vStr value))) ∧
    (∀ i, alGet StatisticTypes name = some .pyInt → pyIntParse value = some i →
      Result.set_stat stats name value = .ok (alSet stats name (.vInt i))) ∧
    (∀ q, alGet StatisticTypes name = some .pyFloat → pyFloatParse value = some q →
      Result.set_stat stats name value = .ok (alSet stats name (.vFloat q))) ∧
    (∀ q, alGet StatisticTypes name = some .pyTimedelta → pyFloatParse value = some q →
      Result.set_stat stats name value =
        .ok (alSet stats name (.vDur (pyTruncF (q.scale 1000000))))) := by
  refine ⟨fun h => ?_, fun i h hp => ?_, fun q h hp => ?_, fun q h hp => ?_⟩
  · simp [Result.set_stat, h]
  · simp [Result.set_stat, h, hp]
  · simp [Result.set_stat, h, hp]
  · simp [Result.set_stat, h, hp]

/-- Witness for claim C5 (amended): the solveTime statistic is stored as a
duration of int(1.5 * 1000000) microseconds. -/
theorem set_stat_typed_storage_witness :
    alGet StatisticTypes "solveTime" = some .pyTimedelta ∧
    pyFloatParse "1.50" = some ⟨150, 100⟩ ∧
    Result.set_stat [] "solveTime" "1.50" =
      .ok (alSet [] "solveTime" (.vDur (pyTruncF (PyFloat.scale ⟨150, 100⟩ 1000000)))) :=
  ⟨by decide, by decide,
    (set_stat_typed_storage [] "solveTime" "1.50").2.2.2 ⟨150, 100⟩ (by decide) (by decide)⟩

/-- Claim C6 (code bug): on the marker reading percent time elapsed 1.50 s, the
current revision of Result.from_process stores the claimed
int(1.50 * 1000000) = 1500000 microseconds, while the early revision computes
the same number of microseconds into time_us but stores
timedelta(milliseconds=time_us), a duration 1000 times as long. -/
theorem from_process_elapsed_time_units :
    from_process_time_stat (strBytes "% time elapsed: 1.50 s") =
      .ok (some (.vDur 1500000)) ∧
    from_process_time_v0 (strBytes "% time elapsed: 1.50 s") =
      .ok (some (.vDur 1500000000)) ∧
    (1500000000 : Int) ≠ 1500000 := by
  refine ⟨by decide, by decide, by decide⟩

/-- Claim C8 (code bug): on a stderr text with a parseable location prefix whose
file exists in the file system, parse_error reaches the fragment-rendering
branch and raises AttributeError (the branch reads location.line, an attribute
the Location dataclass does not define) instead of returning the classified
error. -/
theorem parse_error_fragment_branch_raises :
    scanLocation (strBytes "model.mzn:1.11-14: Error: syntax error: unexpected bool literal")
      = some ⟨"model.mzn", (1, 1), (11, 14)⟩ ∧
    (fun p => if p = "model.mzn" then some ["constrain true;"] else none) "model.mzn"
      = some ["constrain true;"] ∧
    parse_error (fun p => if p = "model.mzn" then some ["constrain true;"] else none)
      (strBytes "model.mzn:1.11-14: Error: syntax error: unexpected bool literal")
      = .error .attributeError := by
  refine ⟨by decide, by decide, by decide⟩

/-- Claim C10: Result item access is gated by the status — whenever the status
has no solution, access raises KeyError regardless of how many solutions are
stored; when the status has a solution and access_all is false, the key is
resolved against the last stored solution. -/
theorem result_getitem_status_gated (r : Result) (key : PyKey) :
    (r.status.has_solution = false → r.getitem key = .error .keyError) ∧
    (r.status.has_solution = true → r.access_all = false →
      ∀ h : r.solutions ≠ [],
        r.getitem key = (Solution.getitem (r.solutions.getLast h) key).map .item) := by
  constructor
  · intro h
    simp [Result.getitem, h]
  · intro h1 h2 h3
    simp [Result.getitem, h1, h2, pyListGet_neg_one _ h3]

/-- Witness for claim C10: an UNKNOWN-status Result with a stored solution still
raises KeyError, and a SATISFIED-status Result resolves keys against the last
of its two stored solutions. -/
theorem result_getitem_status_gated_witness :
    (Result.getitem ⟨.UNKNOWN, false, [⟨[("x", .vInt 3)], none, []⟩], []⟩ (.str "x")
      = .error .keyError) ∧
    (Result.getitem ⟨.SATISFIED, false,
        [⟨[("x", .vInt 3)], none, []⟩, ⟨[("x", .vInt 7)], none, []⟩], []⟩ (.str "x")
      = (Solution.getitem
          ([⟨[("x", .vInt 3)], none, []⟩,
            (⟨[("x", .vInt 7)], none, []⟩ : Solution)].getLast (by decide)) (.str "x")).map
          .item) :=
  ⟨(result_getitem_status_gated _ _).1 (by decide),
   (result_getitem_status_gated _ _).2 (by decide) (by decide) (by decide)⟩

/-! ## Session loop lemmas -/

theorem objIsWarning_false_of_isError {e : StreamObj} (h : objIsError e = true) :
    objIsWarning e = false := by
  cases e <;> simp_all [objIsError, objIsWarning]

theorem sessionFinish_outcome (y : List StreamResult) (w : List String)
    (st : SessionState) (code : Int) (stderr : PyBytes) :
    (sessionFinish y w st code stderr).outcome =
      if code ≠ 0 ∨ st.status = .ERROR then .raisedParse stderr else .normal := by
  unfold sessionFinish
  split_ifs <;> rfl

theorem sessionFinish_yielded_mem (y : List StreamResult) (w : List String)
    (st : SessionState) (code : Int) (stderr : PyBytes) (r : StreamResult)
    (hr : r ∈ (sessionFinish y w st code stderr).yielded) :
    r ∈ y ∨ r = ⟨st.status, none, st.statistics⟩ := by
  unfold sessionFinish at hr
  split_ifs at hr <;> simp_all [List.mem_append]

theorem liveLoop_append (renames : List (String × String)) (xs ys : List StreamObj) :
    ∀ st, (liveLoop renames st xs).abort = none →
      liveLoop renames st (xs ++ ys) =
        ⟨(liveLoop renames st xs).yielded ++
           (liveLoop renames (liveLoop renames st xs).state ys).yielded,
         (liveLoop renames st xs).warns ++
           (liveLoop renames (liveLoop renames st xs).state ys).warns,
         (liveLoop renames (liveLoop renames st xs).state ys).state,
         (liveLoop renames (liveLoop renames st xs).state ys).abort⟩ := by
  induction xs with
  | nil => intro st _; simp [liveLoop]
  | cons obj rest ih =>
    intro st h
    by_cases hw : objIsWarning obj = true
    · simp [liveLoop, hw] at h
      simp [liveLoop, hw, ih st h]
    · by_cases he : objIsError obj = true
      · simp [liveLoop, hw, he] at h
      · rcases hp : parse_stream_obj renames obj st.statistics with e | ⟨sol, ns, stats⟩
        · simp [liveLoop, hw, he, hp] at h
        · rcases ns with _ | s
          · rcases sol with _ | fields
            · simp [liveLoop, hw, he, hp] at h
              simp [liveLoop, hw, he, hp, ih _ h]
            · simp [liveLoop, hw, he, hp] at h
              simp [liveLoop, hw, he, hp, ih _ h]
          · simp [liveLoop, hw, he, hp] at h
            simp [liveLoop, hw, he, hp, ih _ h]

theorem liveLoop_solution_status (renames : List (String × String)) :
    ∀ (objs : List StreamObj) (st : SessionState) (r : StreamResult),
      r ∈ (liveLoop renames st objs).yielded → r.solution ≠ none →
        r.status ≠ .UNKNOWN := by
  intro objs
  induction objs with
  | nil => intro st r hr; simp [liveLoop] at hr
  | cons obj rest ih =>
    intro st r hr hs
    by_cases hw : objIsWarning obj = true
    · simp only [liveLoop, hw, if_true] at hr
      exact ih _ r hr hs
    · by_cases he : objIsError obj = true
      · simp [liveLoop, hw, he] at hr
      · rcases hp : parse_stream_obj renames obj st.statistics with e | ⟨sol, ns, stats⟩
        · simp [liveLoop, hw, he, hp] at hr
        · rcases ns with _ | s
          · rcases sol with _ | fields
            · simp only [liveLoop, hw, he, hp, if_neg hw, if_neg he] at hr
              exact ih _ r hr hs
            · simp only [liveLoop, hw, he, hp, if_neg hw, if_neg he] at hr
              rcases List.mem_cons.mp hr with hr1 | hr2
              · subst hr1
                by_cases hu : st.status = .UNKNOWN <;> simp [hu]
              · exact ih _ r hr2 hs
          · simp only [liveLoop, hw, he, hp, if_neg hw, if_neg he] at hr
            exact ih _ r hr hs

theorem salvageLoop_solution_status (renames : List (String × String)) :
    ∀ (objs : List StreamObj) (st : SessionState) (r : StreamResult),
      r ∈ (salvageLoop renames st objs).yielded → r.solution ≠ none →
        r.status ≠ .UNKNOWN := by
  intro objs
  induction objs with
  | nil => intro st r hr; simp [salvageLoop] at hr
  | cons obj rest ih =>
    intro st r hr hs
    by_cases hw : objIsWarning obj = true
    · simp only [salvageLoop, hw, if_true] at hr
      exact ih _ r hr hs
    · by_cases he : objIsError obj = true
      · simp [salvageLoop, hw, he] at hr
      · rcases hp : parse_stream_obj renames obj st.statistics with e | ⟨sol, ns, stats⟩
        · simp [salvageLoop, hw, he, hp] at hr
        · rcases ns with _ | s
          · rcases sol with _ | fields
            · simp only [salvageLoop, hw, he, hp, if_neg hw, if_neg he] at hr
              exact ih _ r hr hs
            · simp only [salvageLoop, hw, he, hp, if_neg hw, if_neg he] at hr
              rcases List.mem_cons.mp hr with hr1 | hr2
              · subst hr1
                by_cases hu : st.status = .UNKNOWN <;> simp [hu]
              · exact ih _ r hr2 hs
          · simp only [salvageLoop, hw, he, hp, if_neg hw, if_neg he] at hr
            exact ih _ r hr hs

/-! ## Claim theorems for the session loop -/

/-- Counterexample to claim C2 as stated: a session whose stream holds an
error object followed by a solution object raises the classified error at
once — the remaining stream is not decoded, no salvage Result is produced,
and parse_error is never invoked. -/
theorem session_decode_error_aborts :
    sessionRun [] [.errorMsg "type error" "boom", .solution [("x", PyVal.vInt 1)] 7]
        none 0 []
      = ⟨[], [], .raisedDecode (.errorMsg "type error" "boom")⟩ := by decide

/-- Claim C2 (amended): a warning object, or an error object whose what field
equals warning, is surfaced as a non-fatal warning and decoding continues
with the rest of the stream; any other error object raises the classified
MiniZincError immediately: the session yields exactly the Results decoded
before it, decodes none of the remaining stream, yields no salvage Result,
and ends with the decode error rather than parse_error on stderr. -/
theorem session_error_objects_abort (renames : List (String × String)) :
    (∀ (st : SessionState) (m : String) (rest : List StreamObj),
      liveLoop renames st (.warningMsg m :: rest) =
        ⟨(liveLoop renames st rest).yielded, m :: (liveLoop renames st rest).warns,
         (liveLoop renames st rest).state, (liveLoop renames st rest).abort⟩) ∧
    (∀ (st : SessionState) (m : String) (rest : List StreamObj),
      liveLoop renames st (.errorMsg "warning" m :: rest) =
        ⟨(liveLoop renames st rest).yielded, m :: (liveLoop renames st rest).warns,
         (liveLoop renames st rest).state, (liveLoop renames st rest).abort⟩) ∧
    (∀ (pre : List StreamObj) (e : StreamObj) (rest : List StreamObj)
       (salvage : Option (List StreamObj)) (code : Int) (stderr : PyBytes),
      objIsError e = true →
      (liveLoop renames ⟨.UNKNOWN, .UNKNOWN, []⟩ pre).abort = none →
      sessionRun renames (pre ++ e :: rest) salvage code stderr =
        ⟨(liveLoop renames ⟨.UNKNOWN, .UNKNOWN, []⟩ pre).yielded,
         (liveLoop renames ⟨.UNKNOWN, .UNKNOWN, []⟩ pre).warns,
         .raisedDecode e⟩) := by
  refine ⟨fun st m rest => ?_, fun st m rest => ?_, fun pre e rest salvage code stderr he hpre => ?_⟩
  · simp [liveLoop, objIsWarning, objMessage]
  · simp [liveLoop, objIsWarning, objMessage]
  · have hw := objIsWarning_false_of_isError he
    unfold sessionRun
    rw [liveLoop_append renames pre (e :: rest) _ hpre]
    simp [liveLoop, hw, he, abortOutcome]

/-- Witness for claim C2 (amended): in a concrete session a warning is passed
through and the error object then aborts the run with the decode error. -/
theorem session_error_objects_abort_witness :
    objIsError (.errorMsg "type error" "boom") = true ∧
    (liveLoop [] ⟨.UNKNOWN, .UNKNOWN, []⟩ [.warningMsg "w"]).abort = none ∧
    sessionRun [] ([.warningMsg "w"] ++ .errorMsg "type error" "boom" :: [.solution [] 1])
        none 0 [] =
      ⟨(liveLoop [] ⟨.UNKNOWN, .UNKNOWN, []⟩ [.warningMsg "w"]).yielded,
       (liveLoop [] ⟨.UNKNOWN, .UNKNOWN, []⟩ [.warningMsg "w"]).warns,
       .raisedDecode (.errorMsg "type error" "boom")⟩ :=
  ⟨by decide, by decide,
    (session_error_objects_abort []).2.2 [.warningMsg "w"] (.errorMsg "type error" "boom")
      [.solution [] 1] none 0 [] (by decide) (by decide)⟩

/-- Counterexample to claim C4 as stated: a session whose stream is empty and
whose subprocess exits with code zero reaches the end of its decode loop,
yields no Result at all, and raises no error — the caller receives neither a
terminal Result nor an error. -/
theorem session_empty_run_neither :
    (sessionRun [] [] none 0 []).yielded = [] ∧
    (sessionRun [] [] none 0 []).outcome = .normal := by
  exact ⟨by decide, by decide⟩

/-- Claim C4 (amended): for every session that reaches the end of its decode
loop, parse_error on the drained stderr is raised if and only if the exit
code is non-zero or the resolved status is ERROR, and the run completes
normally otherwise; a normal completion may however yield no Result at all,
so the caller does not always receive a terminal Result. -/
theorem session_raise_iff (renames : List (String × String)) (live : List StreamObj)
    (salvage : Option (List StreamObj)) (code : Int) (stderr : PyBytes)
    (h : sessionDecodeAbort renames live salvage = none) :
    ((sessionRun renames live salvage code stderr).outcome = .raisedParse stderr ↔
      (code ≠ 0 ∨ (sessionFinalState renames live salvage).status = .ERROR)) ∧
    ((sessionRun renames live salvage code stderr).outcome = .normal ↔
      ¬(code ≠ 0 ∨ (sessionFinalState renames live salvage).status = .ERROR)) := by
  unfold sessionDecodeAbort at h
  unfold sessionRun sessionFinalState
  rcases h1 : (liveLoop renames ⟨.UNKNOWN, .UNKNOWN, []⟩ live).abort with _ | ab
  · rcases salvage with _ | objs
    · simp only [h1]
      rw [sessionFinish_outcome]
      split_ifs with hc <;> simp [hc]
    · simp only [h1] at h
      rcases h2 : (salvageLoop renames (liveLoop renames ⟨.UNKNOWN, .UNKNOWN, []⟩ live).state
          objs).abort with _ | ab2
      · simp only [h1, h2]
        rw [sessionFinish_outcome]
        split_ifs with hc <;> simp [hc]
      · simp only [h2] at h
        exact Option.noConfusion h
  · simp only [h1] at h
    exact Option.noConfusion h

/-- Witness for claim C4 (amended): a concrete abort-free run with exit code
one ends by raising parse_error on the stderr bytes. -/
theorem session_raise_iff_witness :
    sessionDecodeAbort [] [] none = none ∧
    (sessionRun [] [] none 1 [3]).outcome = .raisedParse [3] :=
  ⟨by decide, (session_raise_iff [] [] none 1 [3] (by decide)).1.mpr (Or.inl (by decide))⟩

/-- Counterexample to claim C9 as stated: a status marker carrying ERROR is
not more specific than UNKNOWN, yet a solution decoded after it is yielded
with status ERROR, not upgraded to SATISFIED. -/
theorem session_error_marker_blocks_upgrade :
    Status.moreSpecific .ERROR .UNKNOWN = false ∧
    (sessionRun [] [.statusMsg .ERROR, .solution [("x", PyVal.vInt 1)] 7] none 0 []).yielded
      = [⟨.ERROR, some [("x", PyVal.vInt 1)], [("time", PyVal.vDur 7000)]⟩] ∧
    Status.ERROR ≠ Status.SATISFIED := by
  exact ⟨by decide, by decide, by decide⟩

/-- Claim C9 (amended): in both the live structured decode loop and the
end-of-stream salvage pass, every yielded Result whose solution is non-None
has a status different from UNKNOWN; when the resolved status is still
UNKNOWN as the solution is decoded — in particular when no status marker has
been observed — it is upgraded to SATISFIED before the Result is yielded;
a status marker carrying ERROR (not more specific than UNKNOWN) is however
adopted as-is and blocks the upgrade. -/
theorem session_solution_never_unknown :
    (∀ (renames : List (String × String)) (live : List StreamObj)
       (salvage : Option (List StreamObj)) (code : Int) (stderr : PyBytes)
       (r : StreamResult), r ∈ (sessionRun renames live salvage code stderr).yielded →
         r.solution ≠ none → r.status ≠ .UNKNOWN) ∧
    (∀ (renames : List (String × String)) (st : SessionState)
       (fields : List (String × PyVal)) (t : Int) (rest : List StreamObj)
       (r : StreamResult), st.status = .UNKNOWN →
       (liveLoop renames st (.solution fields t :: rest)).yielded.head? = some r →
         r.status = .SATISFIED) ∧
    (∀ (renames : List (String × String)) (st : SessionState)
       (fields : List (String × PyVal)) (t : Int) (rest : List StreamObj)
       (r : StreamResult), st.status = .UNKNOWN →
       (salvageLoop renames st (.solution fields t :: rest)).yielded.head? = some r →
         r.status = .SATISFIED) := by
  refine ⟨?_, ?_, ?_⟩
  · intro renames live salvage code stderr r hr hs
    unfold sessionRun at hr
    rcases h1 : (liveLoop renames ⟨.UNKNOWN, .UNKNOWN, []⟩ live).abort with _ | ab
    · rcases salvage with _ | objs
      · simp only [h1] at hr
        rcases sessionFinish_yielded_mem _ _ _ _ _ _ hr with hr1 | hr2
        · exact liveLoop_solution_status renames live _ r hr1 hs
        · subst hr2; simp at hs
      · rcases h2 : (salvageLoop renames
            (liveLoop renames ⟨.UNKNOWN, .UNKNOWN, []⟩ live).state objs).abort with _ | ab2
        · simp only [h1, h2] at hr
          rcases sessionFinish_yielded_mem _ _ _ _ _ _ hr with hr1 | hr2
          · rcases List.mem_append.mp hr1 with hr3 | hr4
            · exact liveLoop_solution_status renames live _ r hr3 hs
            · exact salvageLoop_solution_status renames objs _ r hr4 hs
          · subst hr2; simp at hs
        · simp only [h1, h2] at hr
          rcases List.mem_append.mp hr with hr3 | hr4
          · exact liveLoop_solution_status renames live _ r hr3 hs
          · exact salvageLoop_solution_status renames objs _ r hr4 hs
    · simp only [h1] at hr
      exact liveLoop_solution_status renames live _ r hr hs
  · intro renames st fields t rest r hu hr
    have hw : objIsWarning (.solution fields t) = false := rfl
    have he : objIsError (.solution fields t) = false := rfl
    rcases hp : parse_stream_obj renames (.solution fields t) st.statistics
        with e | ⟨sol, ns, stats⟩
    · simp [liveLoop, hw, he, hp] at hr
    · have hns : ns = none := by
        simp only [parse_stream_obj] at hp
        rcases hA : applyRenames renames (solutionFieldMoves fields) with e2 | tmp2 <;>
          rw [hA] at hp <;> simp_all
      subst hns
      rcases sol with _ | f2
      · have : False := by
          simp only [parse_stream_obj] at hp
          rcases hA : applyRenames renames (solutionFieldMoves fields) with e2 | tmp2 <;>
            rw [hA] at hp <;> simp_all
        exact this.elim
      · simp only [liveLoop, hw, Bool.false_eq_true, if_false, he, hp] at hr
        simp only [hu, if_pos rfl, List.head?] at hr
        cases hr
        rfl
  · intro renames st fields t rest r hu hr
    have hw : objIsWarning (.solution fields t) = false := rfl
    have he : objIsError (.solution fields t) = false := rfl
    rcases hp : parse_stream_obj renames (.solution fields t) st.statistics
        with e | ⟨sol, ns, stats⟩
    · simp [salvageLoop, hw, he, hp] at hr
    · have hns : ns = none := by
        simp only [parse_stream_obj] at hp
        rcases hA : applyRenames renames (solutionFieldMoves fields) with e2 | tmp2 <;>
          rw [hA] at hp <;> simp_all
      subst hns
      rcases sol with _ | f2
      · have : False := by
          simp only [parse_stream_obj] at hp
          rcases hA : applyRenames renames (solutionFieldMoves fields) with e2 | tmp2 <;>
            rw [hA] at hp <;> simp_all
        exact this.elim
      · simp only [salvageLoop, hw, Bool.false_eq_true, if_false, he, hp] at hr
        simp only [hu, if_pos rfl, List.head?] at hr
        cases hr
        rfl

/-- Witness for claim C9 (amended): a concrete solution arriving while the
status is still UNKNOWN is yielded with status SATISFIED. -/
theorem session_solution_never_unknown_witness :
    (liveLoop [] ⟨.UNKNOWN, .UNKNOWN, []⟩ [.solution [("x", PyVal.vInt 1)] 7]).yielded.head?
      = some ⟨.SATISFIED, some [("x", PyVal.vInt 1)], [("time", PyVal.vDur 7000)]⟩ ∧
    Status.SATISFIED = Status.SATISFIED :=
  ⟨by decide,
    session_solution_never_unknown.2.1 [] ⟨.UNKNOWN, .UNKNOWN, []⟩ [("x", PyVal.vInt 1)] 7 []
      ⟨.SATISFIED, some [("x", PyVal.vInt 1)], [("time", PyVal.vDur 7000)]⟩ rfl (by decide)⟩

theorem applyRenames_preserves_absent (b : String) :
    ∀ (renames : List (String × String)) (tmp tmp2 : List (String × PyVal)),
      (∀ p ∈ renames, p.2 ≠ b) → alGet tmp b = none →
      applyRenames renames tmp = .ok tmp2 → alGet tmp2 b = none := by
  intro renames
  induction renames with
  | nil =>
    intro tmp tmp2 _ hb h
    simp only [applyRenames] at h
    obtain rfl := Except.ok.inj h
    exact hb
  | cons p rest ih =>
    intro tmp tmp2 hafters hb h
    obtain ⟨b1, a1⟩ := p
    simp only [applyRenames] at h
    rcases hrf : renameField tmp b1 a1 with e | tmp1
    · rw [hrf] at h; exact Except.noConfusion h
    · rw [hrf] at h
      refine ih tmp1 tmp2 (fun p hp => hafters p (List.mem_cons_of_mem _ hp)) ?_ h
      unfold renameField at hrf
      rcases hg : alGet tmp b1 with _ | v
      · rw [hg] at hrf; exact Except.noConfusion hrf
      · rw [hg] at hrf
        obtain rfl := Except.ok.inj hrf
        rw [alGet_alSet, alGet_alDel]
        have ha : a1 ≠ b := hafters (b1, a1) (List.mem_cons_self _ _)
        simp [ha, hb]

/-- Counterexample to claim C7 as stated: applying the keyword-rename step of
_parse_stream_obj twice to a raw field map does not yield the same map as
applying it once — the second application raises KeyError, because the first
one removed the original keyword name. -/
theorem rename_step_not_idempotent :
    applyRenames [("for", "mzn_for")] [("for", PyVal.vInt 1)]
      = .ok [("mzn_for", PyVal.vInt 1)] ∧
    applyRenames [("for", "mzn_for")] [("mzn_for", PyVal.vInt 1)]
      = .error .keyError := by
  exact ⟨by decide, by decide⟩

/-- Claim C7 (amended): the rename step with the empty table is the identity;
with a non-empty table none of whose replacement names equals the first
original name — true of every session table, whose replacements are
mzn_-prefixed while the originals are Python keywords — a second application
of the step to the result of a successful first application raises KeyError
instead of returning the same map; and the same fixed table is applied to
every solution of the session, so two identical solution objects decoded in
sequence yield identical renamed field maps. -/
theorem rename_table_application (renames : List (String × String)) :
    (∀ tmp : List (String × PyVal), applyRenames [] tmp = .ok tmp) ∧
    (∀ (b a : String) (rest : List (String × String)) (tmp tmp2 : List (String × PyVal)),
      (∀ p ∈ (b, a) :: rest, p.2 ≠ b) →
      applyRenames ((b, a) :: rest) tmp = .ok tmp2 →
      applyRenames ((b, a) :: rest) tmp2 = .error .keyError) ∧
    (∀ (st : SessionState) (fields : List (String × PyVal)) (t : Int)
       (rest : List StreamObj) (r1 r2 : StreamResult) (tl2 : List StreamResult),
      alGet st.statistics "_checker" = none →
      (liveLoop renames st (.solution fields t :: .solution fields t :: rest)).yielded
        = r1 :: r2 :: tl2 →
      r1.solution = r2.solution) := by
  refine ⟨fun tmp => rfl, ?_, ?_⟩
  · intro b a rest tmp tmp2 hafters h
    simp only [applyRenames] at h ⊢
    rcases hrf : renameField tmp b a with e | tmp1
    · rw [hrf] at h; exact Except.noConfusion h
    · rw [hrf] at h
      have hb1 : alGet tmp1 b = none := by
        unfold renameField at hrf
        rcases hg : alGet tmp b with _ | v
        · rw [hg] at hrf; exact Except.noConfusion hrf
        · rw [hg] at hrf
          obtain rfl := Except.ok.inj hrf
          rw [alGet_alSet, alGet_alDel]
          have ha : a ≠ b := hafters (b, a) (List.mem_cons_self _ _)
          simp [ha]
      have hb2 : alGet tmp2 b = none :=
        applyRenames_preserves_absent b rest tmp1 tmp2
          (fun p hp => hafters p (List.mem_cons_of_mem _ hp)) hb1 h
      simp [renameField, hb2]
  · intro st fields t rest r1 r2 tl2 hc hy
    have hw : objIsWarning (.solution fields t) = false := rfl
    have he : objIsError (.solution fields t) = false := rfl
    rcases hA : applyRenames renames (solutionFieldMoves fields) with e | tmp2
    · simp [liveLoop, parse_stream_obj, hw, he, hA] at hy
    · simp only [liveLoop, hw, Bool.false_eq_true, if_false, he, parse_stream_obj, hA,
        hc, alGet] at hy
      injection hy with h1 hy2
      injection hy2 with h2 _
      rw [← h1, ← h2]

/-- Witness for claim C7 (amended): a concrete table and field map for which a
successful application followed by a second application raises KeyError, and
a concrete two-solution session yielding the same field map twice. -/
theorem rename_table_application_witness :
    applyRenames [("for", "mzn_for")] [("mzn_for", PyVal.vInt 5)] = .error .keyError ∧
    ((liveLoop [] ⟨.UNKNOWN, .UNKNOWN, []⟩
        [.solution [("x", PyVal.vInt 2)] 1, .solution [("x", PyVal.vInt 2)] 1]).yielded.map
        StreamResult.solution
      = [some [("x", PyVal.vInt 2)], some [("x", PyVal.vInt 2)]]) :=
  ⟨(rename_table_application []).2.1 "for" "mzn_for" [] [("for", PyVal.vInt 5)]
      [("mzn_for", PyVal.vInt 5)] (by decide) (by decide),
   by decide⟩

/-! ## Chunking invariance of the structured decoders -/

theorem splitNL_cons_of_no10 (ys : PyBytes) :
    ∀ xs : PyBytes, (∀ b ∈ xs, b ≠ 10) → splitNL (xs ++ 10 :: ys) = xs :: splitNL ys := by
  intro xs
  induction xs with
  | nil => intro _; simp [splitNL]
  | cons x xt ih =>
    intro hx
    have hx10 : x ≠ 10 := hx x (by simp)
    have hxt : ∀ b ∈ xt, b ≠ 10 := fun b hbm => hx b (by simp [hbm])
    simp [splitNL, hx10, ih hxt]

theorem firstNL_lt_of_mem : ∀ bs : PyBytes, 10 ∈ bs → firstNL bs < bs.length := by
  intro bs
  induction bs with
  | nil => intro h; simp at h
  | cons b t ih =>
    intro h
    by_cases hb : b = 10
    · simp [firstNL, hb]
    · have ht : 10 ∈ t := by
        rcases List.mem_cons.mp h with h1 | h2
        · exact absurd h1.symm hb
        · exact h2
      have := ih ht
      simp [firstNL, hb]
      omega

theorem take_firstNL_no10 : ∀ bs : PyBytes, ∀ b ∈ bs.take (firstNL bs), b ≠ 10 := by
  intro bs
  induction bs with
  | nil => intro b hbm; simp [firstNL] at hbm
  | cons x t ih =>
    intro b hbm
    by_cases hx : x = 10
    · simp [firstNL, hx] at hbm
    · rw [show firstNL (x :: t) = firstNL t + 1 from by simp [firstNL, hx]] at hbm
      rw [List.take_succ_cons] at hbm
      rcases List.mem_cons.mp hbm with hb1 | hb2
      · subst hb1; exact hx
      · exact ih b hb2

theorem take_firstNL_succ : ∀ bs : PyBytes, 10 ∈ bs →
    bs.take (firstNL bs + 1) = bs.take (firstNL bs) ++ [10] := by
  intro bs
  induction bs with
  | nil => intro h; simp at h
  | cons x t ih =>
    intro h
    by_cases hx : x = 10
    · subst hx; simp [firstNL]
    · have ht : 10 ∈ t := by
        rcases List.mem_cons.mp h with h1 | h2
        · exact absurd h1.symm hx
        · exact h2
      simp [firstNL, hx, ih ht]

theorem pyStrip_append_ten (xs : PyBytes) : pyStrip (xs ++ [10]) = pyStrip xs := by
  unfold pyStrip
  rw [List.dropWhile_append]
  by_cases hxs : (xs.dropWhile isPySpace).isEmpty = true
  · rw [if_pos hxs]
    have h2 : xs.dropWhile isPySpace = [] := by simpa using hxs
    rw [h2]
    rfl
  · rw [if_neg hxs]
    rw [List.reverse_append]
    simp only [List.reverse_cons, List.reverse_nil, List.nil_append, List.singleton_append]
    rw [List.dropWhile_cons]
    rw [if_pos (show isPySpace 10 = true from rfl)]

theorem getLast?_drop_of_ne_nil (bs : PyBytes) (n : Nat) (h : bs.drop n ≠ []) :
    (bs.drop n).getLast? = bs.getLast? := by
  induction n generalizing bs with
  | zero => rfl
  | succ n ih =>
    cases bs with
    | nil => simp at h
    | cons b t =>
      simp only [List.drop_succ_cons] at h ⊢
      rw [ih t h]
      have ht : t ≠ [] := by
        intro he; rw [he] at h; simp at h
      cases t with
      | nil => exact absurd rfl ht
      | cons c u => rw [List.getLast?_cons_cons]

theorem mem_of_getLast?_ten (bs : PyBytes) (h : bs.getLast? = some 10) : 10 ∈ bs := by
  have hne : bs ≠ [] := by
    intro he; rw [he] at h; simp at h
  rw [List.getLast?_eq_getLast bs hne] at h
  have h2 : bs.getLast hne = 10 := Option.some.inj h
  exact h2 ▸ List.getLast_mem hne

theorem decodeAsyncGo_eq (loads : PyBytes → StreamObj) :
    ∀ (fuel : Nat) (buffer remaining : PyBytes) (sched : List Nat),
      remaining.length ≤ fuel →
      (∀ b ∈ buffer, b ≠ 10) →
      (remaining = [] → buffer = []) →
      (remaining ≠ [] → remaining.getLast? = some 10) →
      decodeAsyncGo loads fuel buffer remaining sched
        = processLines loads (splitNL (buffer ++ remaining)) := by
  intro fuel
  induction fuel with
  | zero =>
    intro buffer remaining sched hlen hb hre _
    have h0 : remaining = [] := List.eq_nil_of_length_eq_zero (Nat.le_zero.mp hlen)
    subst h0
    have hb0 := hre rfl
    subst hb0
    rfl
  | succ fuel ih =>
    intro buffer remaining sched hlen hb hre hend
    by_cases hrem : remaining = []
    · subst hrem
      have hb0 := hre rfl
      subst hb0
      rfl
    · have h10 : 10 ∈ remaining := mem_of_getLast?_ten remaining (hend hrem)
      have hjlt : firstNL remaining < remaining.length := firstNL_lt_of_mem remaining h10
      have hdec : remaining.take (firstNL remaining) ++
          10 :: remaining.drop (firstNL remaining + 1) = remaining := by
        conv_rhs => rw [← List.take_append_drop (firstNL remaining + 1) remaining]
        rw [take_firstNL_succ remaining h10]
        simp
      have hih := fun (sch : List Nat) =>
        ih [] (remaining.drop (firstNL remaining + 1)) sch
          (by rw [List.length_drop]; omega)
          (by intro b hb2; simp at hb2)
          (fun _ => rfl)
          (fun hne => by
            rw [getLast?_drop_of_ne_nil remaining _ hne]; exact hend hrem)
      simp only [decodeAsyncGo]
      rw [if_neg hrem]
      by_cases hc : min (sched.headD 0) (firstNL remaining) = 0
      · rw [if_pos hc]
        have hsplit : splitNL (buffer ++ remaining)
            = (buffer ++ remaining.take (firstNL remaining)) ::
                splitNL (remaining.drop (firstNL remaining + 1)) := by
          conv_lhs => rw [← hdec]
          rw [← List.append_assoc]
          refine splitNL_cons_of_no10 _ _ ?_
          intro b hbm
          rcases List.mem_append.mp hbm with h1 | h2
          · exact hb b h1
          · exact take_firstNL_no10 remaining b h2
        rw [hsplit]
        simp only [processLines]
        have hstrip : pyStrip (buffer ++ remaining.take (firstNL remaining + 1))
            = pyStrip (buffer ++ remaining.take (firstNL remaining)) := by
          rw [take_firstNL_succ remaining h10, ← List.append_assoc, pyStrip_append_ten]
        rw [hstrip]
        by_cases hempty : pyStrip (buffer ++ remaining.take (firstNL remaining)) = []
        · rw [if_pos hempty, if_pos hempty, hih sched.tail]
          simp
        · rw [if_neg hempty, if_neg hempty]
          by_cases hwarn :
              objIsWarning (loads (pyStrip (buffer ++ remaining.take (firstNL remaining)))) = true
          · rw [if_pos hwarn, if_pos hwarn, hih sched.tail]
            simp
          · rw [if_neg hwarn, if_neg hwarn]
            by_cases herr :
                objIsError (loads (pyStrip (buffer ++ remaining.take (firstNL remaining)))) = true
            · rw [if_pos herr, if_pos herr]
            · rw [if_neg herr, if_neg herr, hih sched.tail]
              simp
      · rw [if_neg hc]
        have hcj : min (sched.headD 0) (firstNL remaining) ≤ firstNL remaining :=
          Nat.min_le_right _ _
        have hdropne : remaining.drop (min (sched.headD 0) (firstNL remaining)) ≠ [] := by
          apply List.length_pos.mp
          rw [List.length_drop]
          omega
        rw [ih (buffer ++ remaining.take (min (sched.headD 0) (firstNL remaining)))
            (remaining.drop (min (sched.headD 0) (firstNL remaining))) sched.tail
            (by rw [List.length_drop]; omega)
            (by
              intro b hbm
              rcases List.mem_append.mp hbm with h1 | h2
              · exact hb b h1
              · refine take_firstNL_no10 remaining b ?_
                have hsub : remaining.take (min (sched.headD 0) (firstNL remaining))
                    = (remaining.take (firstNL remaining)).take
                        (min (sched.headD 0) (firstNL remaining)) := by
                  rw [List.take_take, Nat.min_eq_left hcj]
                exact List.take_subset _ _ (hsub ▸ h2))
            (fun hdn => absurd hdn hdropne)
            (fun hne => by
              rw [getLast?_drop_of_ne_nil remaining _ hne]; exact hend hrem)]
        rw [List.append_assoc, List.take_append_drop]

/-- Claim C1: chunking invariance of the structured decoder — for every byte
blob that is a newline-terminated stream of lines and every delivery schedule
of the asyncio stream (successful readuntil calls interleaved with
LimitOverrunError partial reads of any size, covering a single line exceeding
the read buffer limit split across two or more physical reads),
decode_async_json_stream produces exactly the events (yielded objects and
warnings, in order) and the raised error, if any, of decode_json_stream
applied once to the whole blob. -/
theorem decode_async_eq_sync (loads : PyBytes → StreamObj) (blob : PyBytes)
    (sched : List Nat) (h : blob = [] ∨ blob.getLast? = some 10) :
    decode_async_json_stream loads blob sched = decode_json_stream loads blob := by
  unfold decode_async_json_stream decode_json_stream
  rw [decodeAsyncGo_eq loads blob.length [] blob sched (le_refl _) (by simp)
    (fun _ => rfl)
    (fun hne => by
      rcases h with h1 | h2
      · exact absurd h1 hne
      · exact h2)]
  rw [List.nil_append]

/-- Witness for claim C1: a concrete newline-terminated blob delivered with an
overrun split decodes to the same events as the one-shot decode. -/
theorem decode_async_eq_sync_witness :
    (([97, 98, 10] : PyBytes) = [] ∨ ([97, 98, 10] : PyBytes).getLast? = some 10) ∧
    decode_async_json_stream (fun _ => StreamObj.otherMsg) [97, 98, 10] [1, 0]
      = decode_json_stream (fun _ => StreamObj.otherMsg) [97, 98, 10] :=
  ⟨Or.inr (by decide),
   decode_async_eq_sync (fun _ => StreamObj.otherMsg) [97, 98, 10] [1, 0]
     (Or.inr (by decide))⟩

end MznPy
